import Mathlib

/-!
Verification development for the SKOS graph layer in skostools.py
(repository Swimavidly/Flowchart).

The graph store (rdflib Graph) is a set of (subject, predicate, object)
triples; adding an existing triple is a no-op, so the store is modelled as a
Finset of triples.  Each mutation method of the Python classes Concept,
ConceptScheme and Collection is translated into a pure function from the
graph (plus the bound URI of the receiver object and the method arguments)
to an outcome record holding the resulting graph, the exception raised (if
any) and the warnings logged.  Because Python exceptions propagate after any
writes already performed, the outcome of a failing call carries the graph
state at the moment the exception escapes, which is not always the input
graph.
-/

/-- RDF node: a URI reference, a plain literal (lexical form plus optional
language tag, as produced by the PlainLiteral class), or a blank node. -/
inductive Node
  | uri (s : String)
  | lit (s : String) (lang : Option String)
  | bnode (n : Nat)
deriving DecidableEq

/-- The SKOS and RDF predicates used by the module (the sets SKOSLabels,
SKOSSemanticRelations, SKOSMappingRelations, SKOSSchemeRelations plus
rdf:type and skos:member).  Documentation-note predicates are omitted: the
note-adding methods perform no validation and no claim mentions them. -/
inductive SkosPred
  | rdfType
  | prefLabel
  | altLabel
  | hiddenLabel
  | broader
  | narrower
  | related
  | broaderTransitive
  | narrowerTransitive
  | broadMatch
  | narrowMatch
  | closeMatch
  | exactMatch
  | relatedMatch
  | inScheme
  | hasTopConcept
  | topConceptOf
  | member
deriving DecidableEq

/-- A triple is (subject, predicate, object). -/
abbrev Triple := Node × SkosPred × Node

/-- The graph store: a set of triples (rdflib Graph has set semantics). -/
abbrev Graph := Finset Triple

/-- Object of the rdf:type triple written by Concept.__init__. -/
def conceptClass : Node := .uri "skos:Concept"

/-- Object of the rdf:type triple written by ConceptScheme.__init__. -/
def conceptSchemeClass : Node := .uri "skos:ConceptScheme"

/-- Object of the rdf:type triple written by Collection.__init__. -/
def collectionClass : Node := .uri "skos:Collection"

/-- graph.add(triple): set insertion (duplicates collapse). -/
def gadd (g : Graph) (t : Triple) : Graph := insert t g

/-- graph.objects(s, p): the set of objects of triples with subject s and
predicate p. -/
def objects (g : Graph) (s : Node) (p : SkosPred) : Finset Node :=
  (g.filter (fun t => t.1 = s ∧ t.2.1 = p)).image (fun t => t.2.2)

/-- graph.subjects(p, o): the set of subjects of triples with predicate p and
object o. -/
def subjects (g : Graph) (p : SkosPred) (o : Node) : Finset Node :=
  (g.filter (fun t => t.2.1 = p ∧ t.2.2 = o)).image (fun t => t.1)

/-- The language tag of a literal node (pl.language in the source; label
objects written through this API are always literals). -/
def nodeLang : Node → Option String
  | .lit _ l => l
  | _ => none

/-- The closed set of exceptions raised by skostools.py.  In the source each
SKOS error instance also carries the offending triple, an example number and
a reference URL; the claims only distinguish the kinds, so the payload is
omitted here.  typeError and valueError stand for the built-in Python
TypeError (raised by _checkType and _cleanUpPlainLiteral) and ValueError
(raised by easyURI). -/
inductive SKOSError
  | conflictingLabel
  | disjointMatch
  | disjointRelation
  | redundantLabel
  | reflexive
  | invalidPredicate
  | improperAssociation
  | improperMapping
  | schemeConcept
  | topConcept
  | typeError
  | valueError
deriving DecidableEq

/-- Warnings logged through logger.warning. -/
inductive Warn
  | reflexiveTriple (t : Triple)
deriving DecidableEq

/-- Outcome of one mutation method: the final graph (including writes done
before an exception escaped), the exception, and the warnings logged. -/
structure OpOut where
  graph : Graph
  err : Option SKOSError
  warns : List Warn
deriving DecidableEq

/-- Input to easyURI: a SKOSSubject handle (carrying its bound uri), a raw
URIRef, a string, or any other Python value. -/
inductive EasyInput
  | subject (u : Node)
  | uriRef (u : Node)
  | strInput (s : String)
  | other
deriving DecidableEq

/-- easyURI: return thing.uri for a SKOSSubject, the URIRef itself, a URIRef
built from a string, and raise ValueError for anything else. -/
def easyURI : EasyInput → Except SKOSError Node
  | .subject u => .ok u
  | .uriRef u => .ok u
  | .strInput s => .ok (.uri s)
  | .other => .error .valueError

/-- Input to the label and literal helpers: a str, an rdflib Literal or
PlainLiteral (lexical form plus optional language), or any other value. -/
inductive LiteralInput
  | str (s : String)
  | lit (s : String) (lang : Option String)
  | other
deriving DecidableEq

/-- _cleanUpPlainLiteral: a str becomes a PlainLiteral with the requested
language; a literal whose language is None gets the requested language when
one was given, otherwise the literal keeps its own language; anything else
raises TypeError. -/
def _cleanUpPlainLiteral : LiteralInput → Option String → Except SKOSError Node
  | .str s, lang => .ok (.lit s lang)
  | .lit s l, lang => if l = none ∧ lang ≠ none then .ok (.lit s lang) else .ok (.lit s l)
  | .other, _ => .error .typeError

/-- The SKOSLabels set: altLabel, hiddenLabel, prefLabel. -/
def labelPreds : List SkosPred := [.altLabel, .hiddenLabel, .prefLabel]

/-- The conflict scan of Concept._addLabel: the literal already appears as
the object of some label predicate on this subject. -/
def hasLabelValue (g : Graph) (selfURI : Node) (v : Node) : Prop :=
  ∃ p ∈ labelPreds, (selfURI, p, v) ∈ g

instance (g : Graph) (selfURI v : Node) : Decidable (hasLabelValue g selfURI v) := by
  unfold hasLabelValue; infer_instance

/-- Concept._addLabel: normalize the literal, reject with
ConflictingLabelError if the value is already some label of the subject,
otherwise commit one triple. -/
def _addLabel (g : Graph) (selfURI : Node) (p : SkosPred) (li : LiteralInput)
    (lang : Option String) : OpOut :=
  match _cleanUpPlainLiteral li lang with
  | .error e => ⟨g, some e, []⟩
  | .ok nl =>
    if hasLabelValue g selfURI nl then ⟨g, some .conflictingLabel, []⟩
    else ⟨gadd g (selfURI, p, nl), none, []⟩

/-- Concept.getConceptSchemes: the objects of the inScheme triples. -/
def getConceptSchemes (g : Graph) (c : Node) : Finset Node :=
  objects g c .inScheme

/-- Concept._testSameScheme: the two concepts share at least one scheme. -/
def testSameScheme (g : Graph) (a b : Node) : Prop :=
  (getConceptSchemes g a ∩ getConceptSchemes g b).Nonempty

instance (g : Graph) (a b : Node) : Decidable (testSameScheme g a b) := by
  unfold testSameScheme; infer_instance

/-- Concept.addBroader: reflexive check honouring the irreflexive flag
(warning when lenient), same-scheme requirement (ImproperAssociationError),
disjointness with related in either direction (DisjointRelationError), then
commit the broader triple and its narrower inverse. -/
def addBroader (g : Graph) (selfURI conceptURI : Node) (irreflexive : Bool) : OpOut :=
  let t : Triple := (selfURI, .broader, conceptURI)
  if selfURI = conceptURI ∧ irreflexive = true then ⟨g, some .reflexive, []⟩ else
  let ws := if selfURI = conceptURI then [Warn.reflexiveTriple t] else []
  if ¬ testSameScheme g selfURI conceptURI then ⟨g, some .improperAssociation, ws⟩ else
  if (selfURI, .related, conceptURI) ∈ g ∨ (conceptURI, .related, selfURI) ∈ g then
    ⟨g, some .disjointRelation, ws⟩
  else ⟨gadd (gadd g t) (conceptURI, .narrower, selfURI), none, ws⟩

/-- Concept.addNarrower: mirror image of addBroader (narrower forward,
broader inverse). -/
def addNarrower (g : Graph) (selfURI conceptURI : Node) (irreflexive : Bool) : OpOut :=
  let t : Triple := (selfURI, .narrower, conceptURI)
  if selfURI = conceptURI ∧ irreflexive = true then ⟨g, some .reflexive, []⟩ else
  let ws := if selfURI = conceptURI then [Warn.reflexiveTriple t] else []
  if ¬ testSameScheme g selfURI conceptURI then ⟨g, some .improperAssociation, ws⟩ else
  if (selfURI, .related, conceptURI) ∈ g ∨ (conceptURI, .related, selfURI) ∈ g then
    ⟨g, some .disjointRelation, ws⟩
  else ⟨gadd (gadd g t) (conceptURI, .broader, selfURI), none, ws⟩

/-- Concept.addRelated.  The source calls _testReflexive(triple, True): the
irreflexive parameter is accepted but never consulted, so a reflexive call
always raises.  On a missing shared scheme the source raises
ImproperMappingError (not ImproperAssociationError). -/
def addRelated (g : Graph) (selfURI conceptURI : Node) (irreflexive : Bool) : OpOut :=
  if selfURI = conceptURI then ⟨g, some .reflexive, []⟩ else
  if ¬ testSameScheme g selfURI conceptURI then ⟨g, some .improperMapping, []⟩ else
  ⟨gadd (gadd g (selfURI, .related, conceptURI)) (conceptURI, .related, selfURI), none, []⟩

/-- Concept.addCloseMatch: strict reflexive check, different-scheme
requirement, then commit the closeMatch triple and its closeMatch inverse. -/
def addCloseMatch (g : Graph) (selfURI conceptURI : Node) : OpOut :=
  if selfURI = conceptURI then ⟨g, some .reflexive, []⟩ else
  if testSameScheme g selfURI conceptURI then ⟨g, some .improperMapping, []⟩ else
  ⟨gadd (gadd g (selfURI, .closeMatch, conceptURI)) (conceptURI, .closeMatch, selfURI), none, []⟩

/-- Concept.addRelatedMatch: strict reflexive check, different-scheme
requirement, then commit the relatedMatch pair. -/
def addRelatedMatch (g : Graph) (selfURI conceptURI : Node) : OpOut :=
  if selfURI = conceptURI then ⟨g, some .reflexive, []⟩ else
  if testSameScheme g selfURI conceptURI then ⟨g, some .improperMapping, []⟩ else
  ⟨gadd (gadd g (selfURI, .relatedMatch, conceptURI)) (conceptURI, .relatedMatch, selfURI), none, []⟩

/-- Concept.addNarrowMatch: strict reflexive check, different-scheme
requirement, then commit the narrowMatch triple and its broadMatch inverse. -/
def addNarrowMatch (g : Graph) (selfURI conceptURI : Node) : OpOut :=
  if selfURI = conceptURI then ⟨g, some .reflexive, []⟩ else
  if testSameScheme g selfURI conceptURI then ⟨g, some .improperMapping, []⟩ else
  ⟨gadd (gadd g (selfURI, .narrowMatch, conceptURI)) (conceptURI, .broadMatch, selfURI), none, []⟩

/-- Concept.addBroadMatch: strict reflexive check, different-scheme
requirement, DisjointRelationError if a relatedMatch triple exists in either
direction, DisjointMatchError if an exactMatch triple exists in either
direction, then commit the broadMatch triple and its narrowMatch inverse. -/
def addBroadMatch (g : Graph) (selfURI conceptURI : Node) : OpOut :=
  if selfURI = conceptURI then ⟨g, some .reflexive, []⟩ else
  if testSameScheme g selfURI conceptURI then ⟨g, some .improperMapping, []⟩ else
  if (selfURI, .relatedMatch, conceptURI) ∈ g ∨ (conceptURI, .relatedMatch, selfURI) ∈ g then
    ⟨g, some .disjointRelation, []⟩
  else if (selfURI, .exactMatch, conceptURI) ∈ g ∨ (conceptURI, .exactMatch, selfURI) ∈ g then
    ⟨g, some .disjointMatch, []⟩
  else ⟨gadd (gadd g (selfURI, .broadMatch, conceptURI)) (conceptURI, .narrowMatch, selfURI), none, []⟩

/-- One propagation loop of Concept.addExactMatch: for every exactMatch
partner m of src (skipping self.uri and conceptURI) add the triples
(subj, exactMatch, m) and (subj, closeMatch, m).  The source folds the
additions one by one over the live set-valued store; the final store does
not depend on the iteration order, so the net effect is this union. -/
def propagateMatches (g : Graph) (selfURI conceptURI src subj : Node) : Graph :=
  let ms := (objects g src .exactMatch).filter (fun m => m ≠ selfURI ∧ m ≠ conceptURI)
  (g ∪ ms.image (fun m => (subj, SkosPred.exactMatch, m))) ∪
    ms.image (fun m => (subj, SkosPred.closeMatch, m))

/-- Concept.addExactMatch: strict reflexive check, different-scheme
requirement, DisjointMatchError if the target already sits in the combined
broadMatch, narrowMatch or relatedMatch object sets, then commit the
exactMatch pair, call addCloseMatch for the same two concepts, and finally
run the two propagation loops (first over the partners of the target, then
over the partners of the subject, the second loop seeing the writes of the
first). -/
def addExactMatch (g : Graph) (selfURI conceptURI : Node) : OpOut :=
  if selfURI = conceptURI then ⟨g, some .reflexive, []⟩ else
  if testSameScheme g selfURI conceptURI then ⟨g, some .improperMapping, []⟩ else
  if conceptURI ∈ (objects g selfURI .broadMatch ∪ objects g selfURI .narrowMatch ∪
      objects g selfURI .relatedMatch) then ⟨g, some .disjointMatch, []⟩ else
  match addCloseMatch (gadd (gadd g (selfURI, .exactMatch, conceptURI))
      (conceptURI, .exactMatch, selfURI)) selfURI conceptURI with
  | ⟨g2, some e, ws⟩ => ⟨g2, some e, ws⟩
  | ⟨g2, none, ws⟩ =>
    ⟨propagateMatches (propagateMatches g2 selfURI conceptURI conceptURI selfURI)
        selfURI conceptURI selfURI conceptURI, none, ws⟩

/-- The removal performed by the replace branch of addPrefLabel: drop every
prefLabel triple of this subject whose literal has the given language. -/
def stripPref (g : Graph) (selfURI : Node) (lang : Option String) : Graph :=
  g.filter (fun t => ¬(t.1 = selfURI ∧ t.2.1 = SkosPred.prefLabel ∧ nodeLang t.2.2 = lang))

/-- Concept.addPrefLabel (Collection.addPrefLabel has the same body): scan
the existing preferred labels for one with the requested language; if found
and replace is False raise RedundantLabelError, if found and replace is True
remove it first; then run _addLabel, whose conflict scan may still raise
after the removal already happened. -/
def addPrefLabel (g : Graph) (selfURI : Node) (li : LiteralInput) (lang : Option String)
    (replace : Bool) : OpOut :=
  let sameLang := (objects g selfURI .prefLabel).filter (fun n => nodeLang n = lang)
  if sameLang.Nonempty ∧ replace = false then ⟨g, some .redundantLabel, []⟩
  else _addLabel (if replace then stripPref g selfURI lang else g) selfURI .prefLabel li lang

/-- Concept.addAltLabel. -/
def addAltLabel (g : Graph) (selfURI : Node) (li : LiteralInput) (lang : Option String) : OpOut :=
  _addLabel g selfURI .altLabel li lang

/-- Concept.addHiddenLabel. -/
def addHiddenLabel (g : Graph) (selfURI : Node) (li : LiteralInput) (lang : Option String) : OpOut :=
  _addLabel g selfURI .hiddenLabel li lang

/-- ConceptScheme.addConcept: unconditionally commit the inScheme triple. -/
def addConcept (g : Graph) (schemeURI conceptURI : Node) : OpOut :=
  ⟨gadd g (conceptURI, .inScheme, schemeURI), none, []⟩

/-- The four sets collected by ConceptScheme.addTopConcept, united: direct
broader objects, broaderTransitive objects, subjects of narrower triples
with the candidate as object, and subjects of narrowerTransitive triples. -/
def allBroaderOf (g : Graph) (conceptURI : Node) : Finset Node :=
  ((objects g conceptURI .broader ∪ objects g conceptURI .broaderTransitive) ∪
    subjects g .narrower conceptURI) ∪ subjects g .narrowerTransitive conceptURI

/-- ConceptScheme.addTopConcept: reject with TopConceptError when the united
bigger-concept set is nonempty and some member of it is inScheme of this
scheme; otherwise commit hasTopConcept, topConceptOf and (via addConcept)
inScheme. -/
def addTopConcept (g : Graph) (schemeURI conceptURI : Node) : OpOut :=
  if (allBroaderOf g conceptURI).Nonempty ∧
      ∃ b ∈ allBroaderOf g conceptURI, (b, SkosPred.inScheme, schemeURI) ∈ g then
    ⟨g, some .topConcept, []⟩
  else
    ⟨gadd (gadd (gadd g (schemeURI, .hasTopConcept, conceptURI))
        (conceptURI, .topConceptOf, schemeURI)) (conceptURI, .inScheme, schemeURI), none, []⟩

/-- Concept.__init__: write the Concept type triple unless the URI is
already typed ConceptScheme or Collection, in which case raise
SchemeConceptError without writing. -/
def conceptInit (g : Graph) (u : Node) : OpOut :=
  if (u, SkosPred.rdfType, conceptSchemeClass) ∉ g ∧ (u, SkosPred.rdfType, collectionClass) ∉ g then
    ⟨gadd g (u, .rdfType, conceptClass), none, []⟩
  else ⟨g, some .schemeConcept, []⟩

/-- ConceptScheme.__init__: write the ConceptScheme type triple unless the
URI is already typed Concept or Collection. -/
def conceptSchemeInit (g : Graph) (u : Node) : OpOut :=
  if (u, SkosPred.rdfType, conceptClass) ∉ g ∧ (u, SkosPred.rdfType, collectionClass) ∉ g then
    ⟨gadd g (u, .rdfType, conceptSchemeClass), none, []⟩
  else ⟨g, some .schemeConcept, []⟩

/-- Collection.__init__: write the Collection type triple unless the URI is
already typed Concept or ConceptScheme. -/
def collectionInit (g : Graph) (u : Node) : OpOut :=
  if (u, SkosPred.rdfType, conceptClass) ∉ g ∧ (u, SkosPred.rdfType, conceptSchemeClass) ∉ g then
    ⟨gadd g (u, .rdfType, collectionClass), none, []⟩
  else ⟨g, some .schemeConcept, []⟩

/-- The mutation methods that validate before writing, one constructor per
method call (receiver URI plus arguments).  Methods that never raise a SKOS
validation error — the note methods, addConcept, addToScheme, addMember,
the removal methods — and the three NotImplementedError stubs are not
included. -/
inductive MutOp
  | broader (a b : Node) (irr : Bool)
  | narrower (a b : Node) (irr : Bool)
  | related (a b : Node) (irr : Bool)
  | broadMatch (a b : Node)
  | narrowMatch (a b : Node)
  | closeMatch (a b : Node)
  | exactMatch (a b : Node)
  | relatedMatch (a b : Node)
  | prefLabel (a : Node) (li : LiteralInput) (lang : Option String) (repl : Bool)
  | altLabel (a : Node) (li : LiteralInput) (lang : Option String)
  | hiddenLabel (a : Node) (li : LiteralInput) (lang : Option String)
  | topConcept (s c : Node)
  | newConcept (u : Node)
  | newScheme (u : Node)
  | newCollection (u : Node)
deriving DecidableEq

/-- Dispatch one mutation method call on the given store. -/
def runOp : MutOp → Graph → OpOut
  | .broader a b irr, g => addBroader g a b irr
  | .narrower a b irr, g => addNarrower g a b irr
  | .related a b irr, g => addRelated g a b irr
  | .broadMatch a b, g => addBroadMatch g a b
  | .narrowMatch a b, g => addNarrowMatch g a b
  | .closeMatch a b, g => addCloseMatch g a b
  | .exactMatch a b, g => addExactMatch g a b
  | .relatedMatch a b, g => addRelatedMatch g a b
  | .prefLabel a li lang repl, g => addPrefLabel g a li lang repl
  | .altLabel a li lang, g => addAltLabel g a li lang
  | .hiddenLabel a li lang, g => addHiddenLabel g a li lang
  | .topConcept s c, g => addTopConcept g s c
  | .newConcept u, g => conceptInit g u
  | .newScheme u, g => conceptSchemeInit g u
  | .newCollection u, g => collectionInit g u

/-- The store a rejecting call leaves behind: the input store for every
operation except addPrefLabel with replace=True, whose replace loop removes
the same-language preferred labels before the conflict scan can raise. -/
def expectedOnErr : MutOp → Graph → Graph
  | .prefLabel a _ lang true, g => stripPref g a lang
  | _, g => g

/-- Concrete URIs for the concrete instances below. -/
def nA : Node := .uri "a"

def nB : Node := .uri "b"

def nC : Node := .uri "c"

def nS1 : Node := .uri "s1"

def nS2 : Node := .uri "s2"

def nS3 : Node := .uri "s3"

/-- Three concepts in three pairwise different schemes, no matches yet. -/
def gABC : Graph :=
  {(nA, SkosPred.rdfType, conceptClass), (nB, SkosPred.rdfType, conceptClass),
   (nC, SkosPred.rdfType, conceptClass), (nA, SkosPred.inScheme, nS1),
   (nB, SkosPred.inScheme, nS2), (nC, SkosPred.inScheme, nS3)}

/-- Two concepts in two different schemes. -/
def gAB2 : Graph :=
  {(nA, SkosPred.rdfType, conceptClass), (nB, SkosPred.rdfType, conceptClass),
   (nA, SkosPred.inScheme, nS1), (nB, SkosPred.inScheme, nS2)}

/-- One concept in one scheme. -/
def gA1 : Graph :=
  {(nA, SkosPred.rdfType, conceptClass), (nA, SkosPred.inScheme, nS1)}

/-- A concept with preferred label x@en and alternate label y@en. -/
def gPrefAlt : Graph :=
  {(nA, SkosPred.rdfType, conceptClass),
   (nA, SkosPred.prefLabel, Node.lit "x" (some "en")),
   (nA, SkosPred.altLabel, Node.lit "y" (some "en"))}

/-- A concept with alternate label y@en and no preferred label. -/
def gAlt : Graph :=
  {(nA, SkosPred.rdfType, conceptClass),
   (nA, SkosPred.altLabel, Node.lit "y" (some "en"))}

/-- Two concepts sharing one scheme. -/
def gABsame : Graph :=
  {(nA, SkosPred.rdfType, conceptClass), (nB, SkosPred.rdfType, conceptClass),
   (nA, SkosPred.inScheme, nS1), (nB, SkosPred.inScheme, nS1)}

/-- A single identifier typed as Concept, nothing else. -/
def gTyped : Graph := {(nA, SkosPred.rdfType, conceptClass)}

/-- At most one of the three class-type triples per identifier. -/
def atMostOneType (g : Graph) : Prop :=
  ∀ u : Node,
    ¬((u, SkosPred.rdfType, conceptClass) ∈ g ∧ (u, SkosPred.rdfType, conceptSchemeClass) ∈ g) ∧
    ¬((u, SkosPred.rdfType, conceptClass) ∈ g ∧ (u, SkosPred.rdfType, collectionClass) ∈ g) ∧
    ¬((u, SkosPred.rdfType, conceptSchemeClass) ∈ g ∧ (u, SkosPred.rdfType, collectionClass) ∈ g)

/-! ## Structural lemmas about the graph primitives -/

theorem mem_gadd {g : Graph} {t u : Triple} : u ∈ gadd g t ↔ u = t ∨ u ∈ g :=
  Finset.mem_insert

theorem subset_gadd (g : Graph) (t : Triple) : g ⊆ gadd g t :=
  Finset.subset_insert t g

theorem mem_objects {g : Graph} {s : Node} {p : SkosPred} {o : Node} :
    o ∈ objects g s p ↔ (s, p, o) ∈ g := by
  simp only [objects, Finset.mem_image, Finset.mem_filter]
  constructor
  · rintro ⟨⟨t1, t2, t3⟩, ⟨ht, rfl, rfl⟩, rfl⟩
    exact ht
  · intro h
    exact ⟨(s, p, o), ⟨h, rfl, rfl⟩, rfl⟩

theorem mem_subjects {g : Graph} {p : SkosPred} {o : Node} {s : Node} :
    s ∈ subjects g p o ↔ (s, p, o) ∈ g := by
  simp only [subjects, Finset.mem_image, Finset.mem_filter]
  constructor
  · rintro ⟨⟨t1, t2, t3⟩, ⟨ht, rfl, rfl⟩, rfl⟩
    exact ht
  · intro h
    exact ⟨(s, p, o), ⟨h, rfl, rfl⟩, rfl⟩

theorem objects_gadd_ne {g : Graph} {t : Triple} {s : Node} {p : SkosPred}
    (h : t.2.1 ≠ p) : objects (gadd g t) s p = objects g s p := by
  ext o
  simp only [mem_objects, mem_gadd]
  constructor
  · rintro (h1 | h1)
    · cases h1
      exact absurd rfl h
    · exact h1
  · exact Or.inr

theorem testSameScheme_gadd_ne {g : Graph} {t : Triple} {x y : Node}
    (h : t.2.1 ≠ SkosPred.inScheme) :
    testSameScheme (gadd g t) x y ↔ testSameScheme g x y := by
  unfold testSameScheme getConceptSchemes
  rw [objects_gadd_ne h, objects_gadd_ne h]

theorem subset_propagateMatches (g : Graph) (a b src subj : Node) :
    g ⊆ propagateMatches g a b src subj := by
  intro t ht
  simp only [propagateMatches, Finset.mem_union]
  exact Or.inl (Or.inl ht)

theorem mem_propagateMatches {g : Graph} {a b src subj : Node} {t : Triple} :
    t ∈ propagateMatches g a b src subj ↔
      t ∈ g ∨ ∃ m, (src, SkosPred.exactMatch, m) ∈ g ∧ m ≠ a ∧ m ≠ b ∧
        (t = (subj, SkosPred.exactMatch, m) ∨ t = (subj, SkosPred.closeMatch, m)) := by
  simp only [propagateMatches, Finset.mem_union, Finset.mem_image, Finset.mem_filter,
    mem_objects]
  constructor
  · rintro ((h | ⟨m, ⟨hm, h1, h2⟩, rfl⟩) | ⟨m, ⟨hm, h1, h2⟩, rfl⟩)
    · exact Or.inl h
    · exact Or.inr ⟨m, hm, h1, h2, Or.inl rfl⟩
    · exact Or.inr ⟨m, hm, h1, h2, Or.inr rfl⟩
  · rintro (h | ⟨m, hm, h1, h2, (rfl | rfl)⟩)
    · exact Or.inl (Or.inl h)
    · exact Or.inl (Or.inr ⟨m, ⟨hm, h1, h2⟩, rfl⟩)
    · exact Or.inr ⟨m, ⟨hm, h1, h2⟩, rfl⟩

theorem propagateMatches_preds {g : Graph} {a b src subj : Node} {t : Triple}
    (ht : t ∈ propagateMatches g a b src subj) :
    t ∈ g ∨ t.2.1 = SkosPred.exactMatch ∨ t.2.1 = SkosPred.closeMatch := by
  rcases mem_propagateMatches.mp ht with h | ⟨m, _, _, _, (rfl | rfl)⟩
  · exact Or.inl h
  · exact Or.inr (Or.inl rfl)
  · exact Or.inr (Or.inr rfl)

/-! ## Behaviour lemmas for the match operations -/

theorem addCloseMatch_err_none_iff {g : Graph} {a b : Node} :
    (addCloseMatch g a b).err = none ↔ a ≠ b ∧ ¬ testSameScheme g a b := by
  unfold addCloseMatch
  split_ifs with h1 h2 <;> simp_all

theorem addCloseMatch_success_eq {g : Graph} {a b : Node}
    (h1 : a ≠ b) (h2 : ¬ testSameScheme g a b) :
    addCloseMatch g a b =
      ⟨gadd (gadd g (a, SkosPred.closeMatch, b)) (b, SkosPred.closeMatch, a), none, []⟩ := by
  unfold addCloseMatch
  rw [if_neg h1, if_neg h2]

theorem addCloseMatch_err_graph {g : Graph} {a b : Node} {e : SKOSError}
    (h : (addCloseMatch g a b).err = some e) : (addCloseMatch g a b).graph = g := by
  unfold addCloseMatch at *
  split_ifs at * <;> simp_all

theorem subset_addCloseMatch (g : Graph) (a b : Node) : g ⊆ (addCloseMatch g a b).graph := by
  unfold addCloseMatch
  split_ifs
  · exact Finset.Subset.refl _
  · exact Finset.Subset.refl _
  · exact (subset_gadd _ _).trans (subset_gadd _ _)

theorem addCloseMatch_preds {g : Graph} {a b : Node} {t : Triple}
    (ht : t ∈ (addCloseMatch g a b).graph) : t ∈ g ∨ t.2.1 = SkosPred.closeMatch := by
  unfold addCloseMatch at ht
  split_ifs at ht
  · exact Or.inl ht
  · exact Or.inl ht
  · rcases mem_gadd.mp ht with rfl | h
    · exact Or.inr rfl
    · rcases mem_gadd.mp h with rfl | h'
      · exact Or.inr rfl
      · exact Or.inl h'

theorem addExactMatch_success_spec {g : Graph} {a b : Node}
    (h1 : a ≠ b) (h2 : ¬ testSameScheme g a b)
    (h3 : b ∉ objects g a SkosPred.broadMatch ∪ objects g a SkosPred.narrowMatch ∪
      objects g a SkosPred.relatedMatch) :
    addExactMatch g a b =
      ⟨propagateMatches
        (propagateMatches
          (gadd (gadd (gadd (gadd g (a, SkosPred.exactMatch, b)) (b, SkosPred.exactMatch, a))
            (a, SkosPred.closeMatch, b)) (b, SkosPred.closeMatch, a)) a b b a) a b a b,
       none, []⟩ := by
  have hs : ¬ testSameScheme
      (gadd (gadd g (a, SkosPred.exactMatch, b)) (b, SkosPred.exactMatch, a)) a b := by
    rw [testSameScheme_gadd_ne (by simp), testSameScheme_gadd_ne (by simp)]
    exact h2
  unfold addExactMatch
  rw [if_neg h1, if_neg h2, if_neg h3, addCloseMatch_success_eq h1 hs]

theorem addExactMatch_err_none_iff {g : Graph} {a b : Node} :
    (addExactMatch g a b).err = none ↔
      a ≠ b ∧ ¬ testSameScheme g a b ∧
        b ∉ objects g a SkosPred.broadMatch ∪ objects g a SkosPred.narrowMatch ∪
          objects g a SkosPred.relatedMatch := by
  constructor
  · unfold addExactMatch
    split_ifs with h1 h2 h3
    · intro h; simp at h
    · intro h; simp at h
    · intro h; simp at h
    · intro _; exact ⟨h1, h2, h3⟩
  · rintro ⟨h1, h2, h3⟩
    rw [addExactMatch_success_spec h1 h2 h3]

theorem subset_addExactMatch (g : Graph) (a b : Node) : g ⊆ (addExactMatch g a b).graph := by
  unfold addExactMatch
  split_ifs
  · exact Finset.Subset.refl _
  · exact Finset.Subset.refl _
  · exact Finset.Subset.refl _
  · have hsub : g ⊆ (addCloseMatch (gadd (gadd g (a, SkosPred.exactMatch, b))
        (b, SkosPred.exactMatch, a)) a b).graph :=
      ((subset_gadd _ _).trans (subset_gadd _ _)).trans (subset_addCloseMatch _ _ _)
    rcases hr : addCloseMatch (gadd (gadd g (a, SkosPred.exactMatch, b))
        (b, SkosPred.exactMatch, a)) a b with ⟨g2, oe, ws⟩
    rw [hr] at hsub
    rcases oe with _ | e
    · exact hsub.trans ((subset_propagateMatches _ _ _ _ _).trans
        (subset_propagateMatches _ _ _ _ _))
    · exact hsub

theorem addExactMatch_preds {g : Graph} {a b : Node} {t : Triple}
    (ht : t ∈ (addExactMatch g a b).graph) :
    t ∈ g ∨ t.2.1 = SkosPred.exactMatch ∨ t.2.1 = SkosPred.closeMatch := by
  have hg1 : ∀ u : Triple, u ∈ gadd (gadd g (a, SkosPred.exactMatch, b))
      (b, SkosPred.exactMatch, a) →
      u ∈ g ∨ u.2.1 = SkosPred.exactMatch ∨ u.2.1 = SkosPred.closeMatch := by
    intro u hu
    rcases mem_gadd.mp hu with rfl | hu'
    · exact Or.inr (Or.inl rfl)
    · rcases mem_gadd.mp hu' with rfl | hu''
      · exact Or.inr (Or.inl rfl)
      · exact Or.inl hu''
  unfold addExactMatch at ht
  split_ifs at ht
  · exact Or.inl ht
  · exact Or.inl ht
  · exact Or.inl ht
  · rcases hr : addCloseMatch (gadd (gadd g (a, SkosPred.exactMatch, b))
        (b, SkosPred.exactMatch, a)) a b with ⟨g2, oe, ws⟩
    have hg2 : ∀ u : Triple, u ∈ g2 →
        u ∈ g ∨ u.2.1 = SkosPred.exactMatch ∨ u.2.1 = SkosPred.closeMatch := by
      intro u hu
      have : u ∈ (addCloseMatch (gadd (gadd g (a, SkosPred.exactMatch, b))
          (b, SkosPred.exactMatch, a)) a b).graph := by rw [hr]; exact hu
      rcases addCloseMatch_preds this with h' | h'
      · exact hg1 u h'
      · exact Or.inr (Or.inr h')
    rw [hr] at ht
    rcases oe with _ | e
    · rcases propagateMatches_preds ht with ht' | ht' | ht'
      · rcases propagateMatches_preds ht' with ht'' | ht'' | ht''
        · exact hg2 t ht''
        · exact Or.inr (Or.inl ht'')
        · exact Or.inr (Or.inr ht'')
      · exact Or.inr (Or.inl ht')
      · exact Or.inr (Or.inr ht')
    · exact hg2 t ht

theorem objects_addExactMatch {g : Graph} {a b x : Node} {p : SkosPred}
    (hp1 : p ≠ SkosPred.exactMatch) (hp2 : p ≠ SkosPred.closeMatch) :
    objects (addExactMatch g a b).graph x p = objects g x p := by
  ext o
  simp only [mem_objects]
  constructor
  · intro h
    rcases addExactMatch_preds h with h' | h' | h'
    · exact h'
    · exact absurd h' hp1
    · exact absurd h' hp2
  · intro h
    exact subset_addExactMatch g a b h

theorem testSameScheme_addExactMatch {g : Graph} {a b x y : Node} :
    testSameScheme (addExactMatch g a b).graph x y ↔ testSameScheme g x y := by
  unfold testSameScheme getConceptSchemes
  rw [objects_addExactMatch (by simp) (by simp), objects_addExactMatch (by simp) (by simp)]

theorem addExactMatch_success_mem {g : Graph} {a b : Node}
    (h1 : a ≠ b) (h2 : ¬ testSameScheme g a b)
    (h3 : b ∉ objects g a SkosPred.broadMatch ∪ objects g a SkosPred.narrowMatch ∪
      objects g a SkosPred.relatedMatch) :
    (a, SkosPred.exactMatch, b) ∈ (addExactMatch g a b).graph ∧
    (b, SkosPred.exactMatch, a) ∈ (addExactMatch g a b).graph ∧
    (a, SkosPred.closeMatch, b) ∈ (addExactMatch g a b).graph ∧
    (b, SkosPred.closeMatch, a) ∈ (addExactMatch g a b).graph := by
  rw [addExactMatch_success_spec h1 h2 h3]
  have base : ∀ u : Triple,
      u ∈ gadd (gadd (gadd (gadd g (a, SkosPred.exactMatch, b)) (b, SkosPred.exactMatch, a))
        (a, SkosPred.closeMatch, b)) (b, SkosPred.closeMatch, a) →
      u ∈ propagateMatches (propagateMatches
        (gadd (gadd (gadd (gadd g (a, SkosPred.exactMatch, b)) (b, SkosPred.exactMatch, a))
          (a, SkosPred.closeMatch, b)) (b, SkosPred.closeMatch, a)) a b b a) a b a b := by
    intro u hu
    exact subset_propagateMatches _ _ _ _ _ (subset_propagateMatches _ _ _ _ _ hu)
  refine ⟨base _ ?_, base _ ?_, base _ ?_, base _ ?_⟩ <;>
    simp [mem_gadd]

/-- The second propagation loop of a successful addExactMatch: every
pre-existing exactMatch partner m of the subject a gets attached to the
target b by exactMatch and closeMatch triples (no inverses are written). -/
theorem addExactMatch_propagates {g : Graph} {a b m : Node}
    (h1 : a ≠ b) (h2 : ¬ testSameScheme g a b)
    (h3 : b ∉ objects g a SkosPred.broadMatch ∪ objects g a SkosPred.narrowMatch ∪
      objects g a SkosPred.relatedMatch)
    (hm : (a, SkosPred.exactMatch, m) ∈ g) (hma : m ≠ a) (hmb : m ≠ b) :
    (b, SkosPred.exactMatch, m) ∈ (addExactMatch g a b).graph ∧
    (b, SkosPred.closeMatch, m) ∈ (addExactMatch g a b).graph := by
  rw [addExactMatch_success_spec h1 h2 h3]
  have hmem : (a, SkosPred.exactMatch, m) ∈ propagateMatches
      (gadd (gadd (gadd (gadd g (a, SkosPred.exactMatch, b)) (b, SkosPred.exactMatch, a))
        (a, SkosPred.closeMatch, b)) (b, SkosPred.closeMatch, a)) a b b a :=
    subset_propagateMatches _ _ _ _ _
      (((subset_gadd _ _).trans (subset_gadd _ _)).trans
        ((subset_gadd _ _).trans (subset_gadd _ _)) (by exact hm))
  constructor
  · exact mem_propagateMatches.mpr (Or.inr ⟨m, hmem, hma, hmb, Or.inl rfl⟩)
  · exact mem_propagateMatches.mpr (Or.inr ⟨m, hmem, hma, hmb, Or.inr rfl⟩)

/-! ## Per-operation case lemmas: either the store is untouched or the call
succeeded -/

theorem objects_gadd_same {g : Graph} {s : Node} {p : SkosPred} {o : Node} :
    objects (gadd g (s, p, o)) s p = insert o (objects g s p) := by
  ext x
  simp [mem_objects, mem_gadd]

theorem mem_stripPref {g : Graph} {s : Node} {lang : Option String} {t : Triple} :
    t ∈ stripPref g s lang ↔
      t ∈ g ∧ ¬(t.1 = s ∧ t.2.1 = SkosPred.prefLabel ∧ nodeLang t.2.2 = lang) :=
  Finset.mem_filter

theorem addBroader_cases (g : Graph) (a b : Node) (irr : Bool) :
    (addBroader g a b irr).graph = g ∨ (addBroader g a b irr).err = none := by
  simp only [addBroader]
  split_ifs <;> simp

theorem addNarrower_cases (g : Graph) (a b : Node) (irr : Bool) :
    (addNarrower g a b irr).graph = g ∨ (addNarrower g a b irr).err = none := by
  simp only [addNarrower]
  split_ifs <;> simp

theorem addRelated_cases (g : Graph) (a b : Node) (irr : Bool) :
    (addRelated g a b irr).graph = g ∨ (addRelated g a b irr).err = none := by
  simp only [addRelated]
  split_ifs <;> simp

theorem addBroadMatch_cases (g : Graph) (a b : Node) :
    (addBroadMatch g a b).graph = g ∨ (addBroadMatch g a b).err = none := by
  simp only [addBroadMatch]
  split_ifs <;> simp

theorem addNarrowMatch_cases (g : Graph) (a b : Node) :
    (addNarrowMatch g a b).graph = g ∨ (addNarrowMatch g a b).err = none := by
  simp only [addNarrowMatch]
  split_ifs <;> simp

theorem addCloseMatch_cases (g : Graph) (a b : Node) :
    (addCloseMatch g a b).graph = g ∨ (addCloseMatch g a b).err = none := by
  simp only [addCloseMatch]
  split_ifs <;> simp

theorem addRelatedMatch_cases (g : Graph) (a b : Node) :
    (addRelatedMatch g a b).graph = g ∨ (addRelatedMatch g a b).err = none := by
  simp only [addRelatedMatch]
  split_ifs <;> simp

theorem addExactMatch_cases (g : Graph) (a b : Node) :
    (addExactMatch g a b).graph = g ∨ (addExactMatch g a b).err = none := by
  unfold addExactMatch
  split_ifs with h1 h2 h3
  · simp
  · simp
  · simp
  · have hs : ¬ testSameScheme (gadd (gadd g (a, SkosPred.exactMatch, b))
        (b, SkosPred.exactMatch, a)) a b := by
      rw [testSameScheme_gadd_ne (by simp), testSameScheme_gadd_ne (by simp)]
      exact h2
    have hin : (addCloseMatch (gadd (gadd g (a, SkosPred.exactMatch, b))
        (b, SkosPred.exactMatch, a)) a b).err = none :=
      addCloseMatch_err_none_iff.mpr ⟨h1, hs⟩
    rcases hr : addCloseMatch (gadd (gadd g (a, SkosPred.exactMatch, b))
        (b, SkosPred.exactMatch, a)) a b with ⟨g2, oe, ws⟩
    rw [hr] at hin
    simp only at hin
    subst hin
    simp

theorem _addLabel_cases (g : Graph) (s : Node) (p : SkosPred) (li : LiteralInput)
    (lang : Option String) :
    (_addLabel g s p li lang).graph = g ∨ (_addLabel g s p li lang).err = none := by
  unfold _addLabel
  rcases h : _cleanUpPlainLiteral li lang with e | nl
  · simp
  · by_cases hv : hasLabelValue g s nl <;> simp [hv]

theorem addPrefLabel_cases (g : Graph) (a : Node) (li : LiteralInput) (lang : Option String)
    (repl : Bool) :
    (addPrefLabel g a li lang repl).graph = (if repl then stripPref g a lang else g) ∨
    (addPrefLabel g a li lang repl).err = none := by
  simp only [addPrefLabel]
  split_ifs with h1 h2 h3
  · simp_all
  · simp
  · exact _addLabel_cases (stripPref g a lang) a SkosPred.prefLabel li lang
  · exact _addLabel_cases g a SkosPred.prefLabel li lang

theorem addTopConcept_cases (g : Graph) (s c : Node) :
    (addTopConcept g s c).graph = g ∨ (addTopConcept g s c).err = none := by
  simp only [addTopConcept]
  split_ifs <;> simp

theorem conceptInit_cases (g : Graph) (u : Node) :
    (conceptInit g u).graph = g ∨ (conceptInit g u).err = none := by
  simp only [conceptInit]
  split_ifs <;> simp

theorem conceptSchemeInit_cases (g : Graph) (u : Node) :
    (conceptSchemeInit g u).graph = g ∨ (conceptSchemeInit g u).err = none := by
  simp only [conceptSchemeInit]
  split_ifs <;> simp

theorem collectionInit_cases (g : Graph) (u : Node) :
    (collectionInit g u).graph = g ∨ (collectionInit g u).err = none := by
  simp only [collectionInit]
  split_ifs <;> simp

/-! ## Claim C1 -/

/-- C1 (counterexample).  The claim says a rejecting addPrefLabel with
replace=True leaves the store unchanged.  On a concept with preferred label
x@en and alternate label y@en, addPrefLabel("y", "en", replace=True) first
removes the old preferred label and then raises ConflictingLabelError, so
the store after the raising call differs from the store before it. -/
theorem c1_counterexample :
    (addPrefLabel gPrefAlt nA (.str "y") (some "en") true).err =
      some SKOSError.conflictingLabel ∧
    (addPrefLabel gPrefAlt nA (.str "y") (some "en") true).graph ≠ gPrefAlt := by
  decide

/-- C1 (amended).  Every rejecting mutation operation leaves the store
exactly as it was before the call, except addPrefLabel with replace=True:
when that call raises, the store it leaves behind is the pre-call store with
the same-language preferred-label triples of the subject removed. -/
theorem c1_reject_store (op : MutOp) (g : Graph) (e : SKOSError)
    (h : (runOp op g).err = some e) : (runOp op g).graph = expectedOnErr op g := by
  cases op with
  | broader a b irr =>
    rcases addBroader_cases g a b irr with hg | hn
    · exact hg
    · rw [show runOp (MutOp.broader a b irr) g = addBroader g a b irr from rfl, hn] at h
      exact Option.noConfusion h
  | narrower a b irr =>
    rcases addNarrower_cases g a b irr with hg | hn
    · exact hg
    · rw [show runOp (MutOp.narrower a b irr) g = addNarrower g a b irr from rfl, hn] at h
      exact Option.noConfusion h
  | related a b irr =>
    rcases addRelated_cases g a b irr with hg | hn
    · exact hg
    · rw [show runOp (MutOp.related a b irr) g = addRelated g a b irr from rfl, hn] at h
      exact Option.noConfusion h
  | broadMatch a b =>
    rcases addBroadMatch_cases g a b with hg | hn
    · exact hg
    · rw [show runOp (MutOp.broadMatch a b) g = addBroadMatch g a b from rfl, hn] at h
      exact Option.noConfusion h
  | narrowMatch a b =>
    rcases addNarrowMatch_cases g a b with hg | hn
    · exact hg
    · rw [show runOp (MutOp.narrowMatch a b) g = addNarrowMatch g a b from rfl, hn] at h
      exact Option.noConfusion h
  | closeMatch a b =>
    rcases addCloseMatch_cases g a b with hg | hn
    · exact hg
    · rw [show runOp (MutOp.closeMatch a b) g = addCloseMatch g a b from rfl, hn] at h
      exact Option.noConfusion h
  | exactMatch a b =>
    rcases addExactMatch_cases g a b with hg | hn
    · exact hg
    · rw [show runOp (MutOp.exactMatch a b) g = addExactMatch g a b from rfl, hn] at h
      exact Option.noConfusion h
  | relatedMatch a b =>
    rcases addRelatedMatch_cases g a b with hg | hn
    · exact hg
    · rw [show runOp (MutOp.relatedMatch a b) g = addRelatedMatch g a b from rfl, hn] at h
      exact Option.noConfusion h
  | prefLabel a li lang repl =>
    rcases addPrefLabel_cases g a li lang repl with hg | hn
    · cases repl
      · simpa using hg
      · simpa using hg
    · rw [show runOp (MutOp.prefLabel a li lang repl) g = addPrefLabel g a li lang repl
          from rfl, hn] at h
      exact Option.noConfusion h
  | altLabel a li lang =>
    rcases _addLabel_cases g a SkosPred.altLabel li lang with hg | hn
    · exact hg
    · rw [show runOp (MutOp.altLabel a li lang) g = _addLabel g a SkosPred.altLabel li lang
          from rfl, hn] at h
      exact Option.noConfusion h
  | hiddenLabel a li lang =>
    rcases _addLabel_cases g a SkosPred.hiddenLabel li lang with hg | hn
    · exact hg
    · rw [show runOp (MutOp.hiddenLabel a li lang) g = _addLabel g a SkosPred.hiddenLabel li lang
          from rfl, hn] at h
      exact Option.noConfusion h
  | topConcept s c =>
    rcases addTopConcept_cases g s c with hg | hn
    · exact hg
    · rw [show runOp (MutOp.topConcept s c) g = addTopConcept g s c from rfl, hn] at h
      exact Option.noConfusion h
  | newConcept u =>
    rcases conceptInit_cases g u with hg | hn
    · exact hg
    · rw [show runOp (MutOp.newConcept u) g = conceptInit g u from rfl, hn] at h
      exact Option.noConfusion h
  | newScheme u =>
    rcases conceptSchemeInit_cases g u with hg | hn
    · exact hg
    · rw [show runOp (MutOp.newScheme u) g = conceptSchemeInit g u from rfl, hn] at h
      exact Option.noConfusion h
  | newCollection u =>
    rcases collectionInit_cases g u with hg | hn
    · exact hg
    · rw [show runOp (MutOp.newCollection u) g = collectionInit g u from rfl, hn] at h
      exact Option.noConfusion h

/-- C1 (witness): the amended statement applied to the rejecting
replace=True call of the counterexample. -/
theorem c1_reject_store_witness :
    (runOp (MutOp.prefLabel nA (.str "y") (some "en") true) gPrefAlt).graph =
      expectedOnErr (MutOp.prefLabel nA (.str "y") (some "en") true) gPrefAlt :=
  c1_reject_store (MutOp.prefLabel nA (.str "y") (some "en") true) gPrefAlt
    SKOSError.conflictingLabel (by decide)

/-! ## Claim C2 -/

/-- C2 (counterexample).  After the successful calls A.addExactMatch(B) and
B.addExactMatch(C) on three concepts in three different schemes, the second
propagation loop writes (C, exactMatch, A) without its swapped inverse
(A, exactMatch, C), so the all-triples inverse invariant fails right after a
successful add-relation operation. -/
theorem c2_counterexample :
    (addExactMatch (addExactMatch gABC nA nB).graph nB nC).err = none ∧
    (nC, SkosPred.exactMatch, nA) ∈ (addExactMatch (addExactMatch gABC nA nB).graph nB nC).graph ∧
    (nA, SkosPred.exactMatch, nC) ∉ (addExactMatch (addExactMatch gABC nA nB).graph nB nC).graph := by
  decide

/-- C2 (amended).  After every successful add-relation operation the
directly committed forward triple and its required inverse (the paired
relation for broader/narrower and broadMatch/narrowMatch, the same relation
with subject and object swapped for related, closeMatch and exactMatch) are
both present in the store; the extra triples written by the exactMatch
post-commit propagation are exempt and may lack their inverses. -/
theorem c2_inverse_pairs (g : Graph) (a b : Node) (irr : Bool) :
    ((addBroader g a b irr).err = none →
      (a, SkosPred.broader, b) ∈ (addBroader g a b irr).graph ∧
      (b, SkosPred.narrower, a) ∈ (addBroader g a b irr).graph) ∧
    ((addNarrower g a b irr).err = none →
      (a, SkosPred.narrower, b) ∈ (addNarrower g a b irr).graph ∧
      (b, SkosPred.broader, a) ∈ (addNarrower g a b irr).graph) ∧
    ((addRelated g a b irr).err = none →
      (a, SkosPred.related, b) ∈ (addRelated g a b irr).graph ∧
      (b, SkosPred.related, a) ∈ (addRelated g a b irr).graph) ∧
    ((addBroadMatch g a b).err = none →
      (a, SkosPred.broadMatch, b) ∈ (addBroadMatch g a b).graph ∧
      (b, SkosPred.narrowMatch, a) ∈ (addBroadMatch g a b).graph) ∧
    ((addNarrowMatch g a b).err = none →
      (a, SkosPred.narrowMatch, b) ∈ (addNarrowMatch g a b).graph ∧
      (b, SkosPred.broadMatch, a) ∈ (addNarrowMatch g a b).graph) ∧
    ((addCloseMatch g a b).err = none →
      (a, SkosPred.closeMatch, b) ∈ (addCloseMatch g a b).graph ∧
      (b, SkosPred.closeMatch, a) ∈ (addCloseMatch g a b).graph) ∧
    ((addExactMatch g a b).err = none →
      (a, SkosPred.exactMatch, b) ∈ (addExactMatch g a b).graph ∧
      (b, SkosPred.exactMatch, a) ∈ (addExactMatch g a b).graph ∧
      (a, SkosPred.closeMatch, b) ∈ (addExactMatch g a b).graph ∧
      (b, SkosPred.closeMatch, a) ∈ (addExactMatch g a b).graph) := by
  refine ⟨?_, ?_, ?_, ?_, ?_, ?_, ?_⟩
  · intro h
    simp only [addBroader] at h ⊢
    split_ifs at h ⊢ <;> simp_all [mem_gadd]
  · intro h
    simp only [addNarrower] at h ⊢
    split_ifs at h ⊢ <;> simp_all [mem_gadd]
  · intro h
    simp only [addRelated] at h ⊢
    split_ifs at h ⊢ <;> simp_all [mem_gadd]
  · intro h
    simp only [addBroadMatch] at h ⊢
    split_ifs at h ⊢ <;> simp_all [mem_gadd]
  · intro h
    simp only [addNarrowMatch] at h ⊢
    split_ifs at h ⊢ <;> simp_all [mem_gadd]
  · intro h
    simp only [addCloseMatch] at h ⊢
    split_ifs at h ⊢ <;> simp_all [mem_gadd]
  · intro h
    obtain ⟨h1, h2, h3⟩ := addExactMatch_err_none_iff.mp h
    exact addExactMatch_success_mem h1 h2 h3

/-- C2 (witness): the amended statement applied to a successful addBroader
call on two concepts in one scheme and a successful addExactMatch call on
two concepts in different schemes. -/
theorem c2_inverse_pairs_witness :
    ((nA, SkosPred.broader, nB) ∈ (addBroader gABsame nA nB false).graph ∧
     (nB, SkosPred.narrower, nA) ∈ (addBroader gABsame nA nB false).graph) ∧
    ((nA, SkosPred.exactMatch, nB) ∈ (addExactMatch gAB2 nA nB).graph ∧
     (nB, SkosPred.exactMatch, nA) ∈ (addExactMatch gAB2 nA nB).graph ∧
     (nA, SkosPred.closeMatch, nB) ∈ (addExactMatch gAB2 nA nB).graph ∧
     (nB, SkosPred.closeMatch, nA) ∈ (addExactMatch gAB2 nA nB).graph) :=
  ⟨(c2_inverse_pairs gABsame nA nB false).1 (by decide),
   (c2_inverse_pairs gAB2 nA nB false).2.2.2.2.2.2 (by decide)⟩

/-! ## Claim C3 -/

/-- C3 (confirmed).  For concepts A, B, C in pairwise different schemes with
no prior matches between them, A.addExactMatch(B) followed by
B.addExactMatch(C) succeeds, and afterwards the store holds an exactMatch
triple between A and C in at least one direction and a closeMatch triple
between A and C, without any direct exactMatch call between A and C. -/
theorem c3_exactMatch_transitive (g : Graph) (A B C : Node)
    (hAB : A ≠ B) (hBC : B ≠ C) (hAC : A ≠ C)
    (hsAB : ¬ testSameScheme g A B) (hsBC : ¬ testSameScheme g B C)
    (hmAB : B ∉ objects g A SkosPred.broadMatch ∪ objects g A SkosPred.narrowMatch ∪
      objects g A SkosPred.relatedMatch)
    (hmBC : C ∉ objects g B SkosPred.broadMatch ∪ objects g B SkosPred.narrowMatch ∪
      objects g B SkosPred.relatedMatch) :
    (addExactMatch g A B).err = none ∧
    (addExactMatch (addExactMatch g A B).graph B C).err = none ∧
    ((A, SkosPred.exactMatch, C) ∈ (addExactMatch (addExactMatch g A B).graph B C).graph ∨
     (C, SkosPred.exactMatch, A) ∈ (addExactMatch (addExactMatch g A B).graph B C).graph) ∧
    ((A, SkosPred.closeMatch, C) ∈ (addExactMatch (addExactMatch g A B).graph B C).graph ∨
     (C, SkosPred.closeMatch, A) ∈ (addExactMatch (addExactMatch g A B).graph B C).graph) := by
  have h1 : (addExactMatch g A B).err = none :=
    addExactMatch_err_none_iff.mpr ⟨hAB, hsAB, hmAB⟩
  have hsBC1 : ¬ testSameScheme (addExactMatch g A B).graph B C := by
    rw [testSameScheme_addExactMatch]
    exact hsBC
  have hmBC1 : C ∉ objects (addExactMatch g A B).graph B SkosPred.broadMatch ∪
      objects (addExactMatch g A B).graph B SkosPred.narrowMatch ∪
      objects (addExactMatch g A B).graph B SkosPred.relatedMatch := by
    rw [objects_addExactMatch (by simp) (by simp), objects_addExactMatch (by simp) (by simp),
      objects_addExactMatch (by simp) (by simp)]
    exact hmBC
  have h2 : (addExactMatch (addExactMatch g A B).graph B C).err = none :=
    addExactMatch_err_none_iff.mpr ⟨hBC, hsBC1, hmBC1⟩
  have hBA : (B, SkosPred.exactMatch, A) ∈ (addExactMatch g A B).graph :=
    (addExactMatch_success_mem hAB hsAB hmAB).2.1
  have h3 := addExactMatch_propagates hBC hsBC1 hmBC1 hBA hAB hAC
  exact ⟨h1, h2, Or.inr h3.1, Or.inr h3.2⟩

/-- C3 (witness): the theorem applied to concrete concepts a, b, c in the
concrete schemes s1, s2, s3. -/
theorem c3_exactMatch_transitive_witness :
    (addExactMatch gABC nA nB).err = none ∧
    (addExactMatch (addExactMatch gABC nA nB).graph nB nC).err = none ∧
    ((nA, SkosPred.exactMatch, nC) ∈ (addExactMatch (addExactMatch gABC nA nB).graph nB nC).graph ∨
     (nC, SkosPred.exactMatch, nA) ∈ (addExactMatch (addExactMatch gABC nA nB).graph nB nC).graph) ∧
    ((nA, SkosPred.closeMatch, nC) ∈ (addExactMatch (addExactMatch gABC nA nB).graph nB nC).graph ∨
     (nC, SkosPred.closeMatch, nA) ∈ (addExactMatch (addExactMatch gABC nA nB).graph nB nC).graph) :=
  c3_exactMatch_transitive gABC nA nB nC (by decide) (by decide) (by decide)
    (by decide) (by decide) (by decide) (by decide)

/-! ## Claim C4 -/

/-- C4 (confirmed).  addTopConcept rejects with the top-concept error
exactly when the union of the direct broader objects, broaderTransitive
objects, reverse-narrower subjects and reverse-narrowerTransitive subjects
of the candidate is nonempty and contains a member that is inScheme of this
scheme; otherwise it commits hasTopConcept (scheme to concept), topConceptOf
(concept to scheme) and inScheme (concept to scheme). -/
theorem c4_topConcept_rule (g : Graph) (s c : Node) :
    ((addTopConcept g s c).err = some SKOSError.topConcept ↔
      (allBroaderOf g c).Nonempty ∧
        ∃ b ∈ allBroaderOf g c, (b, SkosPred.inScheme, s) ∈ g) ∧
    ((addTopConcept g s c).err = none ↔
      ¬((allBroaderOf g c).Nonempty ∧
        ∃ b ∈ allBroaderOf g c, (b, SkosPred.inScheme, s) ∈ g)) ∧
    ((addTopConcept g s c).err = none →
      (s, SkosPred.hasTopConcept, c) ∈ (addTopConcept g s c).graph ∧
      (c, SkosPred.topConceptOf, s) ∈ (addTopConcept g s c).graph ∧
      (c, SkosPred.inScheme, s) ∈ (addTopConcept g s c).graph) := by
  simp only [addTopConcept]
  split_ifs with h
  · simp [h]
  · simp [h, mem_gadd]

/-- C4 (witness): on the empty store the candidate has no bigger concepts,
so the call succeeds and commits all three triples. -/
theorem c4_topConcept_rule_witness :
    (nS1, SkosPred.hasTopConcept, nA) ∈ (addTopConcept ∅ nS1 nA).graph ∧
    (nA, SkosPred.topConceptOf, nS1) ∈ (addTopConcept ∅ nS1 nA).graph ∧
    (nA, SkosPred.inScheme, nS1) ∈ (addTopConcept ∅ nS1 nA).graph :=
  (c4_topConcept_rule ∅ nS1 nA).2.2 (by decide)

/-! ## Claim C5 -/

/-- C5 (code bug, divergence witness).  For concepts a and b in two
different schemes, addBroader and addNarrower reject with
ImproperAssociationError as the claim says, but addRelated rejects with
ImproperMappingError — the error class whose own docstring describes the
opposite condition (mapping relations asserted between concepts of
different schemes).  No triple is written in any of the three calls. -/
theorem c5_addRelated_wrong_error :
    (addRelated gAB2 nA nB false).err = some SKOSError.improperMapping ∧
    (addRelated gAB2 nA nB false).err ≠ some SKOSError.improperAssociation ∧
    (addRelated gAB2 nA nB false).graph = gAB2 ∧
    (addBroader gAB2 nA nB false).err = some SKOSError.improperAssociation ∧
    (addBroader gAB2 nA nB false).graph = gAB2 ∧
    (addNarrower gAB2 nA nB false).err = some SKOSError.improperAssociation ∧
    (addNarrower gAB2 nA nB false).graph = gAB2 := by
  decide

/-! ## Claim C6 -/

/-- C6 (confirmed).  For a concept a in at least one scheme and with no
related self-triple, addBroader(a, irreflexive=False) succeeds, writes the
broader and narrower self-triples and logs the reflexive warning, while
addBroader(a, irreflexive=True) rejects with the reflexivity error and
leaves the store unchanged. -/
theorem c6_reflexive_broader (g : Graph) (a : Node)
    (hs : (getConceptSchemes g a).Nonempty)
    (hr : (a, SkosPred.related, a) ∉ g) :
    (addBroader g a a false).err = none ∧
    (a, SkosPred.broader, a) ∈ (addBroader g a a false).graph ∧
    (a, SkosPred.narrower, a) ∈ (addBroader g a a false).graph ∧
    (addBroader g a a false).warns = [Warn.reflexiveTriple (a, SkosPred.broader, a)] ∧
    (addBroader g a a true).err = some SKOSError.reflexive ∧
    (addBroader g a a true).graph = g := by
  have hss : testSameScheme g a a := by
    unfold testSameScheme
    rw [Finset.inter_self]
    exact hs
  simp only [addBroader]
  split_ifs with h1 h2 h3 <;> simp_all [mem_gadd]

/-- C6 (witness): the theorem applied to the one-concept one-scheme store. -/
theorem c6_reflexive_broader_witness :
    (addBroader gA1 nA nA false).err = none ∧
    (nA, SkosPred.broader, nA) ∈ (addBroader gA1 nA nA false).graph ∧
    (nA, SkosPred.narrower, nA) ∈ (addBroader gA1 nA nA false).graph ∧
    (addBroader gA1 nA nA false).warns = [Warn.reflexiveTriple (nA, SkosPred.broader, nA)] ∧
    (addBroader gA1 nA nA true).err = some SKOSError.reflexive ∧
    (addBroader gA1 nA nA true).graph = gA1 :=
  c6_reflexive_broader gA1 nA (by decide) (by decide)

/-! ## Claim C7 -/

/-- C7 (counterexample).  The claim asserts the replace=True call succeeds
for every concept.  On a concept that already has alternate label y@en, the
first call addPrefLabel("x","en") succeeds, but the second call
addPrefLabel("y","en",replace=True) raises ConflictingLabelError instead of
succeeding, because the new literal is already an alternate label. -/
theorem c7_counterexample :
    (addPrefLabel gAlt nA (.str "x") (some "en") false).err = none ∧
    (addPrefLabel (addPrefLabel gAlt nA (.str "x") (some "en") false).graph nA (.str "y")
        (some "en") true).err = some SKOSError.conflictingLabel := by
  decide

/-- C7 (amended).  For every concept with no preferred label in language en
and neither x@en nor y@en among its labels of any kind:
addPrefLabel("x","en") succeeds; a second addPrefLabel("y","en") with
replace left at its default rejects with the redundancy error; the same
second call with replace=True succeeds, after which the old preferred-label
triple x@en is absent from the store and the new one y@en is present. -/
theorem c7_prefLabel_replace (g : Graph) (a : Node)
    (h1 : ∀ n ∈ objects g a SkosPred.prefLabel, nodeLang n ≠ some "en")
    (h2 : ¬ hasLabelValue g a (Node.lit "x" (some "en")))
    (h3 : ¬ hasLabelValue g a (Node.lit "y" (some "en"))) :
    (addPrefLabel g a (.str "x") (some "en") false).err = none ∧
    (addPrefLabel (addPrefLabel g a (.str "x") (some "en") false).graph a (.str "y")
        (some "en") false).err = some SKOSError.redundantLabel ∧
    (addPrefLabel (addPrefLabel g a (.str "x") (some "en") false).graph a (.str "y")
        (some "en") true).err = none ∧
    (a, SkosPred.prefLabel, Node.lit "x" (some "en")) ∉
      (addPrefLabel (addPrefLabel g a (.str "x") (some "en") false).graph a (.str "y")
        (some "en") true).graph ∧
    (a, SkosPred.prefLabel, Node.lit "y" (some "en")) ∈
      (addPrefLabel (addPrefLabel g a (.str "x") (some "en") false).graph a (.str "y")
        (some "en") true).graph := by
  have hempty : (objects g a SkosPred.prefLabel).filter (fun n => nodeLang n = some "en") = ∅ :=
    Finset.filter_eq_empty_iff.mpr h1
  have r1eq : addPrefLabel g a (.str "x") (some "en") false =
      ⟨gadd g (a, SkosPred.prefLabel, Node.lit "x" (some "en")), none, []⟩ := by
    simp [addPrefLabel, hempty, _addLabel, _cleanUpPlainLiteral, h2]
  have hG1 : (addPrefLabel g a (.str "x") (some "en") false).graph =
      gadd g (a, SkosPred.prefLabel, Node.lit "x" (some "en")) := by
    rw [r1eq]
  have hfilter1 : (objects (gadd g (a, SkosPred.prefLabel, Node.lit "x" (some "en"))) a
      SkosPred.prefLabel).filter (fun n => nodeLang n = some "en") =
      {Node.lit "x" (some "en")} := by
    rw [objects_gadd_same, Finset.filter_insert, hempty]
    simp [nodeLang]
  have hnc : ¬ hasLabelValue
      (stripPref (gadd g (a, SkosPred.prefLabel, Node.lit "x" (some "en"))) a (some "en")) a
      (Node.lit "y" (some "en")) := by
    rintro ⟨p, hp, hmem⟩
    rw [mem_stripPref] at hmem
    rcases mem_gadd.mp hmem.1 with heq | hmemg
    · have hy : Node.lit "y" (some "en") = Node.lit "x" (some "en") :=
        congrArg (fun t : Triple => t.2.2) heq
      exact absurd hy (by decide)
    · exact h3 ⟨p, hp, hmemg⟩
  refine ⟨by rw [r1eq], ?_, ?_, ?_, ?_⟩
  · rw [hG1]
    simp [addPrefLabel, hfilter1]
  · rw [hG1]
    simp [addPrefLabel, hfilter1, _addLabel, _cleanUpPlainLiteral, hnc]
  · rw [hG1]
    simp only [addPrefLabel, hfilter1]
    rw [if_neg (by simp)]
    rw [if_pos trivial]
    simp only [_addLabel, _cleanUpPlainLiteral]
    rw [if_neg hnc]
    intro hx
    rcases mem_gadd.mp hx with heq | hmem
    · have hy : Node.lit "x" (some "en") = Node.lit "y" (some "en") :=
        congrArg (fun t : Triple => t.2.2) heq
      exact absurd hy (by decide)
    · rw [mem_stripPref] at hmem
      exact hmem.2 ⟨rfl, rfl, rfl⟩
  · rw [hG1]
    simp only [addPrefLabel, hfilter1]
    rw [if_neg (by simp)]
    rw [if_pos trivial]
    simp only [_addLabel, _cleanUpPlainLiteral]
    rw [if_neg hnc]
    exact mem_gadd.mpr (Or.inl rfl)

/-! ## Claim C8 -/

/-- C8 (confirmed).  Each of the three constructors rejects with the
type-collision error exactly when the identifier already carries one of the
other two class-type triples, writes nothing on rejection, and preserves
the invariant that no identifier carries more than one of the three
class-type triples. -/
theorem c8_type_exclusivity (g : Graph) (u : Node) :
    ((conceptInit g u).err.isSome ↔
      (u, SkosPred.rdfType, conceptSchemeClass) ∈ g ∨
        (u, SkosPred.rdfType, collectionClass) ∈ g) ∧
    ((conceptSchemeInit g u).err.isSome ↔
      (u, SkosPred.rdfType, conceptClass) ∈ g ∨
        (u, SkosPred.rdfType, collectionClass) ∈ g) ∧
    ((collectionInit g u).err.isSome ↔
      (u, SkosPred.rdfType, conceptClass) ∈ g ∨
        (u, SkosPred.rdfType, conceptSchemeClass) ∈ g) ∧
    ((conceptInit g u).err.isSome → (conceptInit g u).graph = g) ∧
    ((conceptSchemeInit g u).err.isSome → (conceptSchemeInit g u).graph = g) ∧
    ((collectionInit g u).err.isSome → (collectionInit g u).graph = g) ∧
    (atMostOneType g → atMostOneType (conceptInit g u).graph) ∧
    (atMostOneType g → atMostOneType (conceptSchemeInit g u).graph) ∧
    (atMostOneType g → atMostOneType (collectionInit g u).graph) := by
  refine ⟨?_, ?_, ?_, ?_, ?_, ?_, ?_, ?_, ?_⟩
  · simp only [conceptInit]
    split_ifs with h
    · simp [h.1, h.2]
    · rw [not_and_or, not_not, not_not] at h
      simp [h]
  · simp only [conceptSchemeInit]
    split_ifs with h
    · simp [h.1, h.2]
    · rw [not_and_or, not_not, not_not] at h
      simp [h]
  · simp only [collectionInit]
    split_ifs with h
    · simp [h.1, h.2]
    · rw [not_and_or, not_not, not_not] at h
      simp [h]
  · simp only [conceptInit]
    split_ifs with h <;> simp
  · simp only [conceptSchemeInit]
    split_ifs with h <;> simp
  · simp only [collectionInit]
    split_ifs with h <;> simp
  · intro hg
    simp only [conceptInit]
    split_ifs with h
    · intro v
      have hv := hg v
      refine ⟨?_, ?_, ?_⟩ <;>
        rintro ⟨ha, hb⟩ <;>
        rcases mem_gadd.mp ha with heq | ha' <;>
        rcases mem_gadd.mp hb with heq2 | hb' <;>
        simp_all [Prod.mk.injEq, conceptClass, conceptSchemeClass, collectionClass]
    · exact hg
  · intro hg
    simp only [conceptSchemeInit]
    split_ifs with h
    · intro v
      have hv := hg v
      refine ⟨?_, ?_, ?_⟩ <;>
        rintro ⟨ha, hb⟩ <;>
        rcases mem_gadd.mp ha with heq | ha' <;>
        rcases mem_gadd.mp hb with heq2 | hb' <;>
        simp_all [Prod.mk.injEq, conceptClass, conceptSchemeClass, collectionClass]
    · exact hg
  · intro hg
    simp only [collectionInit]
    split_ifs with h
    · intro v
      have hv := hg v
      refine ⟨?_, ?_, ?_⟩ <;>
        rintro ⟨ha, hb⟩ <;>
        rcases mem_gadd.mp ha with heq | ha' <;>
        rcases mem_gadd.mp hb with heq2 | hb' <;>
        simp_all [Prod.mk.injEq, conceptClass, conceptSchemeClass, collectionClass]
    · exact hg

/-- C8 (witness): on a store typing the identifier a as Concept, the scheme
and collection constructors reject without writing; the type-uniqueness
invariant holds after constructing a concept on the empty store. -/
theorem c8_type_exclusivity_witness :
    (conceptSchemeInit gTyped nA).err.isSome ∧
    (conceptSchemeInit gTyped nA).graph = gTyped ∧
    (collectionInit gTyped nA).err.isSome ∧
    atMostOneType (conceptInit ∅ nA).graph :=
  ⟨(c8_type_exclusivity gTyped nA).2.1.mpr (Or.inl (by decide)),
   (c8_type_exclusivity gTyped nA).2.2.2.2.1 (by decide),
   (c8_type_exclusivity gTyped nA).2.2.1.mpr (Or.inl (by decide)),
   (c8_type_exclusivity ∅ nA).2.2.2.2.2.2.1
     (by
       intro v
       refine ⟨?_, ?_, ?_⟩ <;> rintro ⟨hx, -⟩ <;> exact absurd hx (Finset.not_mem_empty _))⟩

/-- C7 (witness): the amended statement applied to a freshly typed concept
with no labels. -/
theorem c7_prefLabel_replace_witness :
    (addPrefLabel gTyped nA (.str "x") (some "en") false).err = none ∧
    (addPrefLabel (addPrefLabel gTyped nA (.str "x") (some "en") false).graph nA (.str "y")
        (some "en") false).err = some SKOSError.redundantLabel ∧
    (addPrefLabel (addPrefLabel gTyped nA (.str "x") (some "en") false).graph nA (.str "y")
        (some "en") true).err = none ∧
    (nA, SkosPred.prefLabel, Node.lit "x" (some "en")) ∉
      (addPrefLabel (addPrefLabel gTyped nA (.str "x") (some "en") false).graph nA (.str "y")
        (some "en") true).graph ∧
    (nA, SkosPred.prefLabel, Node.lit "y" (some "en")) ∈
      (addPrefLabel (addPrefLabel gTyped nA (.str "x") (some "en") false).graph nA (.str "y")
        (some "en") true).graph :=
  c7_prefLabel_replace gTyped nA (by decide) (by decide) (by decide)

/-! ## Claim C9 -/

/-- C9 (counterexample).  easyURI rejects an unacceptable input with the
Python ValueError, not the Python TypeError used elsewhere in the module, so
describing it as a type error mislabels the exception class. -/
theorem c9_counterexample :
    easyURI EasyInput.other = Except.error SKOSError.valueError ∧
    easyURI EasyInput.other ≠ Except.error SKOSError.typeError := by
  refine ⟨rfl, ?_⟩
  intro h
  simp [easyURI] at h

/-- C9 (amended).  For every input value that is neither a resource handle,
an identifier value, nor a string, easyURI fails with ValueError. -/
theorem c9_valueError (i : EasyInput)
    (h1 : ∀ u, i ≠ EasyInput.subject u)
    (h2 : ∀ u, i ≠ EasyInput.uriRef u)
    (h3 : ∀ s, i ≠ EasyInput.strInput s) :
    easyURI i = Except.error SKOSError.valueError := by
  cases i with
  | subject u => exact absurd rfl (h1 u)
  | uriRef u => exact absurd rfl (h2 u)
  | strInput s => exact absurd rfl (h3 s)
  | other => rfl

/-- C9 (witness): the amended statement applied to the non-accepted input. -/
theorem c9_valueError_witness :
    easyURI EasyInput.other = Except.error SKOSError.valueError :=
  c9_valueError EasyInput.other (fun u h => EasyInput.noConfusion h)
    (fun u h => EasyInput.noConfusion h) (fun s h => EasyInput.noConfusion h)

/-! ## Claim C10 -/

/-- C10 (confirmed).  addRelated passes raiseException=True to the reflexive
check regardless of its irreflexive parameter, so a reflexive addRelated
call on a concept in at least one scheme raises the reflexivity error and
writes nothing, even with irreflexive=False. -/
theorem c10_addRelated_ignores_flag (g : Graph) (a : Node) (irr : Bool)
    (hs : (getConceptSchemes g a).Nonempty) :
    (addRelated g a a irr).err = some SKOSError.reflexive ∧
    (addRelated g a a irr).graph = g ∧
    (addRelated g a a false).err = some SKOSError.reflexive := by
  simp [addRelated]

/-- C10 (witness): the theorem applied to the one-concept one-scheme store
with irreflexive=False. -/
theorem c10_addRelated_ignores_flag_witness :
    (addRelated gA1 nA nA false).err = some SKOSError.reflexive ∧
    (addRelated gA1 nA nA false).graph = gA1 ∧
    (addRelated gA1 nA nA false).err = some SKOSError.reflexive :=
  c10_addRelated_ignores_flag gA1 nA false (by decide)
